import Mathlib

/-!
Verification of the MIME encoding/decoding core of a Gmail command-line
client.  The Python source (`scripts/gmail.py`) walks nested message
payloads to extract text bodies and attachment metadata, and builds
outbound MIME messages that are base64url-encoded for transport.  This
file gives a shallow embedding of that core and proves / refutes the
specified properties about it.
-/

/-! ## Data model

An inbound payload node is a JSON dictionary in the source.  Optional
dictionary keys are modelled with `Option`: `none` means the key is
absent, `some` means it is present (with a possibly empty value).
-/

/-- The `body` sub-dictionary of a payload part: optional base64url
`data`, optional `size`, optional `attachmentId`. -/
structure MsgBody where
  data : Option String
  size : Option Nat
  attachmentId : Option String

/-- An inbound payload node: optional `mimeType`, optional `filename`,
optional `body` dictionary, and an optional `parts` list of child nodes
(`none` models the `parts` key being absent). -/
inductive Payload where
  | mk (mimeType : Option String) (filename : Option String) (body : Option MsgBody)
      (parts : Option (List Payload))

def Payload.mimeType : Payload → Option String
  | .mk mt _ _ _ => mt

def Payload.filename : Payload → Option String
  | .mk _ fn _ _ => fn

def Payload.body : Payload → Option MsgBody
  | .mk _ _ b _ => b

def Payload.parts : Payload → Option (List Payload)
  | .mk _ _ _ ps => ps

/-- Reading `payload["body"].get("data")` through an optional `body` key:
yields `""` when the key or the data is absent (Python falsiness of
`None` and `""` coincide for the source's checks). -/
def bodyData : Option MsgBody → String
  | none => ""
  | some b => b.data.getD ""

/-! ## base64 (models Python `base64.urlsafe_b64encode` / `urlsafe_b64decode`
on alphabet input; bytes are `Nat`s below 256) -/

/-- Sextet value to ASCII code of the URL-safe base64 alphabet
(`A`-`Z`, `a`-`z`, `0`-`9`, `-`, `_`). -/
def b64chr (n : Nat) : Nat :=
  if n < 26 then 65 + n
  else if n < 52 then 97 + (n - 26)
  else if n < 62 then 48 + (n - 52)
  else if n = 62 then 45
  else 95

/-- ASCII code back to sextet value for the URL-safe alphabet. -/
def b64val (c : Nat) : Nat :=
  if 65 ≤ c && c ≤ 90 then c - 65
  else if 97 ≤ c && c ≤ 122 then c - 97 + 26
  else if 48 ≤ c && c ≤ 57 then c - 48 + 52
  else if c = 45 then 62
  else if c = 95 then 63
  else 0

/-- URL-safe base64 encoding of a byte list, padding kept (`=` is 61). -/
def b64encBytes : List Nat → List Nat
  | [] => []
  | [a] => [b64chr (a / 4), b64chr (a % 4 * 16), 61, 61]
  | [a, b] => [b64chr (a / 4), b64chr (a % 4 * 16 + b / 16), b64chr (b % 16 * 4), 61]
  | a :: b :: c :: rest =>
    b64chr (a / 4) :: b64chr (a % 4 * 16 + b / 16) :: b64chr (b % 16 * 4 + c / 64) ::
      b64chr (c % 64) :: b64encBytes rest

/-- URL-safe base64 decoding of a byte list (alphabet input, padding-aware). -/
def b64decBytes : List Nat → List Nat
  | a :: b :: c :: d :: rest =>
    if c = 61 then [b64val a * 4 + b64val b / 16]
    else if d = 61 then [b64val a * 4 + b64val b / 16, b64val b % 16 * 16 + b64val c / 4]
    else (b64val a * 4 + b64val b / 16) :: (b64val b % 16 * 16 + b64val c / 4) ::
      (b64val c % 4 * 64 + b64val d) :: b64decBytes rest
  | _ => []

/-! ## UTF-8 decoding with replacement

Models Python `bytes.decode("utf-8", errors="replace")`: each maximal
invalid subpart is replaced by U+FFFD and decoding continues. -/

def replChar : Char := Char.ofNat 65533

def isCont (b : Nat) : Bool := 128 ≤ b && b ≤ 191

def cont2Ok (b b2 : Nat) : Bool :=
  if b = 224 then 160 ≤ b2 && b2 ≤ 191
  else if b = 237 then 128 ≤ b2 && b2 ≤ 159
  else isCont b2

def cont3Ok (b b2 : Nat) : Bool :=
  if b = 240 then 144 ≤ b2 && b2 ≤ 191
  else if b = 244 then 128 ≤ b2 && b2 ≤ 143
  else isCont b2

def utf8DecodeReplace : List Nat → List Char
  | [] => []
  | b :: rest =>
    if b ≤ 127 then Char.ofNat b :: utf8DecodeReplace rest
    else if 194 ≤ b && b ≤ 223 then
      match rest with
      | [] => [replChar]
      | b2 :: rest2 =>
        if isCont b2 then Char.ofNat ((b - 192) * 64 + (b2 - 128)) :: utf8DecodeReplace rest2
        else replChar :: utf8DecodeReplace (b2 :: rest2)
    else if 224 ≤ b && b ≤ 239 then
      match rest with
      | [] => [replChar]
      | b2 :: rest2 =>
        if cont2Ok b b2 then
          match rest2 with
          | [] => [replChar]
          | b3 :: rest3 =>
            if isCont b3 then
              Char.ofNat ((b - 224) * 4096 + (b2 - 128) * 64 + (b3 - 128)) ::
                utf8DecodeReplace rest3
            else replChar :: utf8DecodeReplace (b3 :: rest3)
        else replChar :: utf8DecodeReplace (b2 :: rest2)
    else if 240 ≤ b && b ≤ 244 then
      match rest with
      | [] => [replChar]
      | b2 :: rest2 =>
        if cont3Ok b b2 then
          match rest2 with
          | [] => [replChar]
          | b3 :: rest3 =>
            if isCont b3 then
              match rest3 with
              | [] => [replChar]
              | b4 :: rest4 =>
                if isCont b4 then
                  Char.ofNat ((b - 240) * 262144 + (b2 - 128) * 4096 + (b3 - 128) * 64 +
                      (b4 - 128)) :: utf8DecodeReplace rest4
                else replChar :: utf8DecodeReplace (b4 :: rest4)
            else replChar :: utf8DecodeReplace (b3 :: rest3)
        else replChar :: utf8DecodeReplace (b2 :: rest2)
    else replChar :: utf8DecodeReplace rest

/-- Model of `base64.urlsafe_b64decode(s).decode("utf-8", errors="replace")` as used
throughout `decode_body`. -/
def b64ToStr (s : String) : String :=
  ⟨utf8DecodeReplace (b64decBytes (s.data.map Char.toNat))⟩

/-! ## Payload Walker: `decode_body` (scripts/gmail.py lines 71-85)

Direct translation of

    def decode_body(payload):
        if "body" in payload and payload["body"].get("data"):
            return b64decode(payload["body"]["data"]).decode("utf-8", errors="replace")
        if "parts" in payload:
            for part in payload["parts"]:
                if part.get("mimeType") == "text/plain":
                    if part["body"].get("data"):
                        return b64decode(part["body"]["data"]).decode(...)
                elif "parts" in part:
                    result = decode_body(part)
                    if result:
                        return result
        return ""

Python exceptions (the unguarded `part["body"]` lookup can raise
`KeyError`) are modelled with `Except`: `.error` is a raised exception,
`.ok` a normal return. -/

mutual

def decode_body : Payload → Except String String
  | .mk _ _ b ps =>
    if bodyData b ≠ "" then .ok (b64ToStr (bodyData b))
    else match ps with
      | none => .ok ""
      | some l => decode_body_loop l

/-- The `for part in payload["parts"]` loop of `decode_body`. -/
def decode_body_loop : List Payload → Except String String
  | [] => .ok ""
  | q :: rest =>
    if q.mimeType = some "text/plain" then
      match q.body with
      | none => .error "KeyError: body"
      | some bb =>
        if bb.data.getD "" ≠ "" then .ok (b64ToStr (bb.data.getD ""))
        else decode_body_loop rest
    else match q.parts with
      | none => decode_body_loop rest
      | some _ =>
        match decode_body q with
        | .error e => .error e
        | .ok r => if r ≠ "" then .ok r else decode_body_loop rest

end

/-! ## Payload Walker: `get_attachments_info` (scripts/gmail.py lines 42-63) -/

/-- One attachment descriptor as appended by `process_parts`. -/
structure AttachmentInfo where
  filename : String
  mimeType : String
  size : Nat
  attachmentId : String
deriving DecidableEq

/-- Reading `part.get("body", ...).get("size", 0)`. -/
def bodySize : Option MsgBody → Nat
  | none => 0
  | some b => b.size.getD 0

/-- Reading `part.get("body", ...).get("attachmentId", "")`. -/
def bodyAttachmentId : Option MsgBody → String
  | none => ""
  | some b => b.attachmentId.getD ""

mutual

/-- The inner `process_parts` function of `get_attachments_info`: for each
part, append a descriptor when `part.get("filename")` is truthy, then
recurse into `part["parts"]` when present, then continue with the rest. -/
def process_parts : List Payload → List AttachmentInfo
  | [] => []
  | .mk mt fn b sub :: rest =>
    (if fn.getD "" ≠ "" then
      [{ filename := fn.getD "", mimeType := mt.getD "",
         size := bodySize b, attachmentId := bodyAttachmentId b }]
    else []) ++ process_parts_sub sub ++ process_parts rest

/-- Recursion into an optional `parts` key (`if "parts" in part`). -/
def process_parts_sub : Option (List Payload) → List AttachmentInfo
  | none => []
  | some l => process_parts l

end

/-- Function `get_attachments_info(payload)`: walks `payload["parts"]` when that key
is present, else returns the empty list. -/
def get_attachments_info (p : Payload) : List AttachmentInfo :=
  match p.parts with
  | none => []
  | some l => process_parts l

/-! ## `get_header` (scripts/gmail.py lines 88-93) -/

/-- Python `str.lower()`, modelled per character. -/
def lowerStr (s : String) : String :=
  ⟨s.data.map Char.toLower⟩

/-- First header whose name matches case-insensitively, else `""`. -/
def get_header : List (String × String) → String → String
  | [], _ => ""
  | (n, v) :: rest, name =>
    if lowerStr n = lowerStr name then v else get_header rest name

/-! ## Message Builder (scripts/gmail.py: `attach_file` lines 21-39,
`draft` lines 219-248, `send` lines 285-304)

The builder runs before any network call.  The local filesystem is
modelled as a map from path to file bytes (`none` = path does not
exist); body text reaches the builder as raw bytes. -/

/-- A sub-part attached to a `MIMEMultipart` container. -/
inductive MimePart where
  | textPart (subtype : String) (body : List Nat)
  | filePart (filename : String) (mimeType : String) (content : List Nat)

/-- The outbound message structure chosen by `draft` / `send`:
`MIMEText` (single-part) or `MIMEMultipart` (multi-part). -/
inductive BuiltMsg where
  | text (body : List Nat)
  | multipart (subparts : List MimePart)

def isMultipart : BuiltMsg → Bool
  | .text _ => false
  | .multipart _ => true

/-- Model of `Path(file_path).name`: the component after the last slash. -/
def pathName (path : String) : String :=
  ⟨(path.data.reverse.takeWhile (fun c => c ≠ '/')).reverse⟩

/-- Does `s` end with the given suffix (on the character lists)? -/
def strEndsWith (s suf : String) : Bool :=
  decide (suf.data.length ≤ s.data.length) &&
    s.data.drop (s.data.length - suf.data.length) == suf.data

/-- Modelled from the spec: `mimetypes.guess_type` (not part of this
repository) gives a best-effort MIME type from the filename extension,
defaulting to a generic binary type when unrecognized. -/
def guess_mime_type (path : String) : String :=
  if strEndsWith path ".txt" then "text/plain"
  else if strEndsWith path ".html" then "text/html"
  else if strEndsWith path ".pdf" then "application/pdf"
  else if strEndsWith path ".png" then "image/png"
  else if strEndsWith path ".jpg" then "image/jpeg"
  else "application/octet-stream"

/-- Standard-alphabet base64 (used by `encoders.encode_base64` for file
parts): the URL-safe encoding with `-`/`_` swapped back to `+`/`/`. -/
def b64encStdBytes (bs : List Nat) : List Nat :=
  (b64encBytes bs).map (fun c => if c = 45 then 43 else if c = 95 then 47 else c)

/-- Function `attach_file`: raises `FileNotFoundError` when the path does not
exist, otherwise yields a base64-encoded file part with a
`Content-Disposition` filename of `path.name`. -/
def attach_file (fs : String → Option (List Nat)) (path : String) : Except String MimePart :=
  match fs path with
  | none => .error ("Attachment not found: " ++ path)
  | some bytes => .ok (.filePart (pathName path) (guess_mime_type path) (b64encStdBytes bytes))

/-- The `for file_path in attachments: attach_file(msg, file_path)` loop:
attach each file in order, aborting at the first missing path. -/
def attach_files (fs : String → Option (List Nat)) : List String → Except String (List MimePart)
  | [] => .ok []
  | p :: rest => do
    let part ← attach_file fs p
    let fileParts ← attach_files fs rest
    .ok (part :: fileParts)

/-- Message-shape selection of `draft` / `send`:

    if attachments or html:
        msg = MIMEMultipart()
        msg.attach(MIMEText(body, "html" if html else "plain"))
        for file_path in attachments: attach_file(msg, file_path)
    else:
        msg = MIMEText(body)
-/
def build_message_parts (fs : String → Option (List Nat)) (body : List Nat) (html : Bool)
    (attachments : List String) : Except String BuiltMsg :=
  if !attachments.isEmpty || html then do
    let fileParts ← attach_files fs attachments
    .ok (.multipart (.textPart (if html then "html" else "plain") body :: fileParts))
  else .ok (.text body)

/-- Step `if cc: msg["Cc"] = cc` — a header set only when the optional CLI
value is present and non-empty. -/
def optHeader (n : String) (v : Option String) : List (String × String) :=
  match v with
  | none => []
  | some s => if s = "" then [] else [(n, s)]

/-- Reply threading headers (draft lines 238-242):

    orig_msg_id = get_header(orig_headers, "Message-ID")
    if orig_msg_id:
        msg["In-Reply-To"] = orig_msg_id
        msg["References"] = orig_msg_id
-/
def reply_headers (origHeaders : List (String × String)) : List (String × String) :=
  if get_header origHeaders "Message-ID" = "" then []
  else [("In-Reply-To", get_header origHeaders "Message-ID"),
        ("References", get_header origHeaders "Message-ID")]

/-- The headers `draft` sets on the built message, in source order:
To, Subject, optional Cc, optional Bcc, then reply-threading headers
when replying. -/
def assemble_draft_headers (toAddr subject : String) (cc bcc : Option String)
    (replyTo : Bool) (origHeaders : List (String × String)) : List (String × String) :=
  [("To", toAddr), ("Subject", subject)] ++ optHeader "Cc" cc ++ optHeader "Bcc" bcc ++
    (if replyTo then reply_headers origHeaders else [])

/-- The whole message-construction phase of `draft` (lines 219-242):
build the MIME structure (which may raise `FileNotFoundError`), then set
the headers.  Everything here happens before the API call on line 248. -/
def build_draft_message (fs : String → Option (List Nat)) (toAddr subject : String)
    (cc bcc : Option String) (body : List Nat) (html : Bool) (attachments : List String)
    (replyTo : Bool) (origHeaders : List (String × String)) :
    Except String (BuiltMsg × List (String × String)) := do
  let m ← build_message_parts fs body html attachments
  .ok (m, assemble_draft_headers toAddr subject cc bcc replyTo origHeaders)

/-- The network requests issued by the `draft` command: exactly one
`drafts().create` call when message construction succeeds, none when it
raises. -/
def draft_network_requests (fs : String → Option (List Nat)) (toAddr subject : String)
    (cc bcc : Option String) (body : List Nat) (html : Bool) (attachments : List String)
    (replyTo : Bool) (origHeaders : List (String × String)) :
    List (BuiltMsg × List (String × String)) :=
  match build_draft_message fs toAddr subject cc bcc body html attachments replyTo origHeaders with
  | .ok r => [r]
  | .error _ => []

/-! ## Serialization and re-parsing of the wire form (for the round-trip
property of `encode_message`, scripts/gmail.py lines 66-68) -/

/-- Modelled from the spec: `message.as_bytes()` (Python email library,
not part of this repository) serializes an RFC-822-style header block —
one `Name: value` line per header, in order — followed by a blank line
and the body.  Bytes are `Nat`s; 10 is LF, 58 `:`, 32 space. -/
def message_bytes : List (List Nat × List Nat) → List Nat → List Nat
  | [], body => 10 :: body
  | h :: rest, body => h.1 ++ 58 :: 32 :: h.2 ++ 10 :: message_bytes rest body

/-- Function `encode_message`: base64url-encode the serialized message bytes
(`base64.urlsafe_b64encode(message.as_bytes())`). -/
def encode_message (m : List Nat) : List Nat := b64encBytes m

/-- Split a byte list at the first LF. -/
def splitNL : List Nat → List Nat × List Nat
  | [] => ([], [])
  | b :: rest =>
    if b = 10 then ([], rest)
    else ((splitNL rest).1.cons b, (splitNL rest).2)

theorem splitNL_snd_le (bs : List Nat) : (splitNL bs).2.length ≤ bs.length := by
  induction bs with
  | nil => simp [splitNL]
  | cons b rest ih =>
    simp only [splitNL]
    split
    · simp
    · simpa using Nat.le_succ_of_le ih

theorem splitNL_snd_lt (b : Nat) (rest : List Nat) :
    (splitNL (b :: rest)).2.length < (b :: rest).length := by
  simp only [splitNL]
  split
  · simp
  · simpa using Nat.lt_succ_of_le (splitNL_snd_le rest)

/-- Split a byte list at the first colon. -/
def splitColon : List Nat → List Nat × List Nat
  | [] => ([], [])
  | b :: rest =>
    if b = 58 then ([], rest)
    else ((splitColon rest).1.cons b, (splitColon rest).2)

/-- Drop a single leading space (the one `Name: value` inserts). -/
def dropOneSpace : List Nat → List Nat
  | [] => []
  | b :: rest => if b = 32 then rest else b :: rest

/-- Parse one `Name: value` header line back into (name, value). -/
def parse_header_line (l : List Nat) : List Nat × List Nat :=
  ((splitColon l).1, dropOneSpace (splitColon l).2)

/-- Re-parse the header block of a serialized message: read `Name: value`
lines until the blank line that separates headers from the body. -/
def parse_header_block (bs : List Nat) : List (List Nat × List Nat) :=
  match bs with
  | [] => []
  | b :: rest =>
    if (splitNL (b :: rest)).1 = [] then []
    else parse_header_line (splitNL (b :: rest)).1 :: parse_header_block (splitNL (b :: rest)).2
termination_by bs.length
decreasing_by simp only [List.length_cons]; exact splitNL_snd_lt _ _

/-! ## Spec-side definitions

These follow the specification's words (not the code), for comparison
with the source embeddings above. -/

/-- Inline data of a part, read through the optional body dictionary. -/
def partData (q : Payload) : String := bodyData q.body

mutual

/-- The `extractText` traversal exactly as the specification states it:
(1) a node carrying inline data decodes and returns it immediately
regardless of mime type; (2) else scan children in order — a child of
mime type exactly "text/plain" carrying inline data is decoded and
returned, and a child that itself has children is recursed into, the
recursive result returned if non-empty; (3) otherwise the empty
string. -/
def extractText_claimed : Payload → String
  | .mk _ _ b ps =>
    if bodyData b ≠ "" then b64ToStr (bodyData b)
    else match ps with
      | none => ""
      | some l => extractText_claimed_scan l

def extractText_claimed_scan : List Payload → String
  | [] => ""
  | q :: rest =>
    if q.mimeType = some "text/plain" ∧ partData q ≠ "" then b64ToStr (partData q)
    else if (q.parts).isSome = true then
      if extractText_claimed q ≠ "" then extractText_claimed q
      else extractText_claimed_scan rest
    else extractText_claimed_scan rest

end

mutual

/-- The amended `extractText` traversal: as claimed, except that the
scan recurses only into children whose declared mime type is NOT exactly
"text/plain" (children typed "text/plain" are only ever read for inline
data, never recursed into). -/
def extractText_amended : Payload → String
  | .mk _ _ b ps =>
    if bodyData b ≠ "" then b64ToStr (bodyData b)
    else match ps with
      | none => ""
      | some l => extractText_amended_scan l

def extractText_amended_scan : List Payload → String
  | [] => ""
  | q :: rest =>
    if q.mimeType = some "text/plain" ∧ partData q ≠ "" then b64ToStr (partData q)
    else if q.mimeType ≠ some "text/plain" ∧ (q.parts).isSome = true then
      if extractText_amended q ≠ "" then extractText_amended q
      else extractText_amended_scan rest
    else extractText_amended_scan rest

end

mutual

/-- All parts reachable through a `parts` key below a node ("all children
at every level"), in depth-first encounter order. -/
def nodes_of : Payload → List Payload
  | .mk _ _ _ ps => nodes_of_sub ps

def nodes_of_sub : Option (List Payload) → List Payload
  | none => []
  | some l => nodes_of_list l

def nodes_of_list : List Payload → List Payload
  | [] => []
  | q :: rest => q :: (nodes_of q ++ nodes_of_list rest)

end

/-- The descriptor a part contributes per the specification: one entry
when it bears a non-empty `filename`, with size defaulting to 0 and
attachmentId to the empty string when absent. -/
def desc_of (q : Payload) : Option AttachmentInfo :=
  if q.filename.getD "" ≠ "" then
    some { filename := q.filename.getD "", mimeType := q.mimeType.getD "",
           size := bodySize q.body, attachmentId := bodyAttachmentId q.body }
  else none

mutual

/-- Every part in the tree whose declared mime type is exactly
"text/plain" carries a `body` key (the well-formedness under which
`decode_body` cannot raise `KeyError`). -/
def wf_plain_bodies : Payload → Bool
  | .mk mt _ b ps => (!(mt = some "text/plain") || b.isSome) && wf_plain_bodies_sub ps

def wf_plain_bodies_sub : Option (List Payload) → Bool
  | none => true
  | some l => wf_plain_bodies_list l

def wf_plain_bodies_list : List Payload → Bool
  | [] => true
  | q :: rest => wf_plain_bodies q && wf_plain_bodies_list rest

end

/-! ## A simultaneous induction principle for payload trees -/

theorem payload_rec_aux (motive : Payload → Prop) (motiveL : List Payload → Prop)
    (hmk : ∀ mt fn b ps, (∀ l, ps = some l → motiveL l) → motive (.mk mt fn b ps))
    (hnil : motiveL [])
    (hcons : ∀ q rest, motive q → motiveL rest → motiveL (q :: rest)) :
    (∀ p, motive p) ∧ (∀ l, motiveL l) := by
  have key : ∀ n : Nat, (∀ p : Payload, sizeOf p ≤ n → motive p) ∧
      (∀ l : List Payload, sizeOf l ≤ n → motiveL l) := by
    intro n
    induction n with
    | zero =>
      constructor
      · intro p hp
        cases p with
        | mk mt fn b ps => simp at hp
      · intro l hl
        cases l with
        | nil => exact hnil
        | cons q rest => simp at hl
    | succ n ih =>
      constructor
      · intro p hp
        cases p with
        | mk mt fn b ps =>
          apply hmk
          intro l hl
          subst hl
          apply ih.2
          simp at hp
          omega
      · intro l hl
        cases l with
        | nil => exact hnil
        | cons q rest =>
          simp at hl
          exact hcons q rest (ih.1 q (by omega)) (ih.2 rest (by omega))
  exact ⟨fun p => (key (sizeOf p)).1 p le_rfl, fun l => (key (sizeOf l)).2 l le_rfl⟩

theorem process_parts_eq_filterMap :
    (∀ p : Payload, process_parts_sub p.parts = (nodes_of p).filterMap desc_of) ∧
    (∀ l : List Payload, process_parts l = (nodes_of_list l).filterMap desc_of) := by
  apply payload_rec_aux
  · intro mt fn b ps ih
    cases ps with
    | none => simp [Payload.parts, process_parts_sub, nodes_of, nodes_of_sub, nodes_of_list]
    | some l =>
      simpa [Payload.parts, process_parts_sub, nodes_of, nodes_of_sub] using ih l rfl
  · simp [process_parts, nodes_of_list]
  · intro q rest hq hrest
    cases q with
    | mk mt fn b sub =>
      have hq' : process_parts_sub sub = (nodes_of (Payload.mk mt fn b sub)).filterMap desc_of := by
        simpa [Payload.parts] using hq
      by_cases hfn : fn.getD "" = ""
      · simp [process_parts, nodes_of_list, List.filterMap_cons, List.filterMap_append,
          desc_of, Payload.filename, hfn, hq', hrest]
      · simp [process_parts, nodes_of_list, List.filterMap_cons, List.filterMap_append,
          desc_of, Payload.filename, Payload.mimeType, Payload.body, hfn, hq', hrest]

/-- C3: `extractAttachments` (`get_attachments_info`) is the depth-first
enumeration of all children at every level, in encounter order, keeping
one descriptor per part with a non-empty filename (parts without a
filename are skipped but their children still visited), with size
defaulting to 0 and attachmentId to "" when absent. -/
theorem c3_attachments_traversal (p : Payload) :
    get_attachments_info p = (nodes_of p).filterMap desc_of := by
  cases p with
  | mk mt fn b ps =>
    cases ps with
    | none => simp [get_attachments_info, Payload.parts, nodes_of, nodes_of_sub]
    | some l =>
      simpa [get_attachments_info, Payload.parts, nodes_of, nodes_of_sub] using
        process_parts_eq_filterMap.2 l

/-- C10: `get_attachments_info` never inspects the root node's own
filename: a payload without a `parts` key yields the empty list whatever
its other fields hold. -/
theorem c10_root_filename_ignored (p : Payload) (h : p.parts = none) :
    get_attachments_info p = [] := by
  cases p with
  | mk mt fn b ps =>
    simp [Payload.parts] at h
    subst h
    simp [get_attachments_info, Payload.parts]

/-- C10 witness: a root bearing a non-empty filename but no `parts` key
contributes no descriptor. -/
theorem c10_root_filename_ignored_witness :
    (Payload.mk (some "application/pdf") (some "report.pdf")
        (some ⟨none, some 5, some "att1"⟩) none).parts = none ∧
      get_attachments_info (Payload.mk (some "application/pdf") (some "report.pdf")
        (some ⟨none, some 5, some "att1"⟩) none) = [] :=
  ⟨rfl, c10_root_filename_ignored _ rfl⟩

theorem decode_body_eq (mt fn : Option String) (b : Option MsgBody)
    (ps : Option (List Payload)) :
    decode_body (.mk mt fn b ps) =
      if bodyData b ≠ "" then .ok (b64ToStr (bodyData b))
      else match ps with
        | none => .ok ""
        | some l => decode_body_loop l := by
  rw [decode_body.eq_def]

theorem decode_body_loop_nil : decode_body_loop [] = .ok "" := by
  rw [decode_body_loop.eq_def]

theorem decode_body_loop_cons (q : Payload) (rest : List Payload) :
    decode_body_loop (q :: rest) =
      if q.mimeType = some "text/plain" then
        match q.body with
        | none => .error "KeyError: body"
        | some bb =>
          if bb.data.getD "" ≠ "" then .ok (b64ToStr (bb.data.getD ""))
          else decode_body_loop rest
      else match q.parts with
        | none => decode_body_loop rest
        | some _ =>
          match decode_body q with
          | .error e => .error e
          | .ok r => if r ≠ "" then .ok r else decode_body_loop rest := by
  rw [decode_body_loop.eq_def]

theorem extractText_amended_eq (mt fn : Option String) (b : Option MsgBody)
    (ps : Option (List Payload)) :
    extractText_amended (.mk mt fn b ps) =
      if bodyData b ≠ "" then b64ToStr (bodyData b)
      else match ps with
        | none => ""
        | some l => extractText_amended_scan l := by
  rw [extractText_amended.eq_def]

theorem extractText_amended_scan_nil : extractText_amended_scan [] = "" := by
  rw [extractText_amended_scan.eq_def]

theorem extractText_amended_scan_cons (q : Payload) (rest : List Payload) :
    extractText_amended_scan (q :: rest) =
      if q.mimeType = some "text/plain" ∧ partData q ≠ "" then b64ToStr (partData q)
      else if q.mimeType ≠ some "text/plain" ∧ (q.parts).isSome = true then
        if extractText_amended q ≠ "" then extractText_amended q
        else extractText_amended_scan rest
      else extractText_amended_scan rest := by
  rw [extractText_amended_scan.eq_def]

theorem wf_plain_bodies_eq (mt fn : Option String) (b : Option MsgBody)
    (ps : Option (List Payload)) :
    wf_plain_bodies (.mk mt fn b ps) =
      ((!(mt = some "text/plain") || b.isSome) && wf_plain_bodies_sub ps) := by
  rw [wf_plain_bodies.eq_def]

theorem wf_plain_bodies_list_cons (q : Payload) (rest : List Payload) :
    wf_plain_bodies_list (q :: rest) = (wf_plain_bodies q && wf_plain_bodies_list rest) := by
  rw [wf_plain_bodies_list.eq_def]

theorem decode_body_amended_aux :
    (∀ p : Payload, wf_plain_bodies p = true →
      decode_body p = .ok (extractText_amended p)) ∧
    (∀ l : List Payload, wf_plain_bodies_list l = true →
      decode_body_loop l = .ok (extractText_amended_scan l)) := by
  apply payload_rec_aux
    (fun p => wf_plain_bodies p = true → decode_body p = .ok (extractText_amended p))
    (fun l => wf_plain_bodies_list l = true →
      decode_body_loop l = .ok (extractText_amended_scan l))
  · intro mt fn b ps ih hwf
    rw [wf_plain_bodies_eq] at hwf
    have hsub : wf_plain_bodies_sub ps = true := by
      simp at hwf
      exact hwf.2
    rw [decode_body_eq, extractText_amended_eq]
    by_cases hd : bodyData b = ""
    · simp only [hd, ne_eq, not_true_eq_false, if_neg, ite_false, not_false_eq_true]
      cases ps with
      | none => rfl
      | some l =>
        have hl := ih l rfl (by simpa [wf_plain_bodies_sub] using hsub)
        simpa using hl
    · simp [hd]
  · intro _
    rw [decode_body_loop_nil, extractText_amended_scan_nil]
  · intro q rest hq hrest hwf
    rw [wf_plain_bodies_list_cons] at hwf
    have hwfq : wf_plain_bodies q = true := by
      simp at hwf
      exact hwf.1
    have hwfrest : wf_plain_bodies_list rest = true := by
      simp at hwf
      exact hwf.2
    rw [decode_body_loop_cons, extractText_amended_scan_cons]
    cases q with
    | mk mt fn b sub =>
      by_cases hmt : mt = some "text/plain"
      · subst hmt
        have hb : b.isSome = true := by
          rw [wf_plain_bodies_eq] at hwfq
          simp at hwfq
          exact hwfq.1
        cases b with
        | none => simp at hb
        | some bb =>
          by_cases hdata : bb.data.getD "" = ""
          · simp [Payload.mimeType, Payload.body, partData, bodyData, hdata, hrest hwfrest]
          · simp [Payload.mimeType, Payload.body, partData, bodyData, hdata]
      · cases sub with
        | none =>
          simp [Payload.mimeType, Payload.parts, hmt, hrest hwfrest]
        | some l =>
          have hq' := hq hwfq
          by_cases hr : extractText_amended (Payload.mk mt fn b (some l)) = ""
          · simp [Payload.mimeType, Payload.parts, hmt, hq', hr, hrest hwfrest]
          · simp [Payload.mimeType, Payload.parts, hmt, hq', hr]

/-- C1 (counterexample): the claimed traversal recurses into every child
that has children, but `decode_body` recurses only through the `elif`
branch, i.e. only into children whose declared mime type is not exactly
"text/plain".  On a payload whose single child is typed "text/plain",
carries no inline data, and contains a nested "text/plain" leaf decoding
to "reply", the code returns "" while the claimed traversal returns
"reply". -/
theorem c1_counterexample :
    decode_body (.mk none none none (some
      [.mk (some "text/plain") none (some ⟨some "", none, none⟩)
        (some [.mk (some "text/plain") none (some ⟨some "cmVwbHk=", none, none⟩) none])])) =
      .ok "" ∧
    extractText_claimed (.mk none none none (some
      [.mk (some "text/plain") none (some ⟨some "", none, none⟩)
        (some [.mk (some "text/plain") none (some ⟨some "cmVwbHk=", none, none⟩) none])])) =
      "reply" :=
  ⟨rfl, rfl⟩

/-- C1 (amended): on every payload tree in which each part declared
"text/plain" has a `body` field, `extractText` (`decode_body`) follows
the claimed traversal amended in one point: the scan recurses only into
children whose declared mime type is not exactly "text/plain". -/
theorem c1_extract_text_amended (p : Payload) (h : wf_plain_bodies p = true) :
    decode_body p = .ok (extractText_amended p) :=
  decode_body_amended_aux.1 p h

/-- C1 witness: a two-child multipart payload (an html leaf followed by a
plain-text leaf) satisfies the well-formedness hypothesis and decodes per
the amended traversal. -/
theorem c1_extract_text_amended_witness :
    wf_plain_bodies (.mk none none none (some
      [.mk (some "text/html") none (some ⟨some "PGI+aGk8L2I+", none, none⟩) none,
       .mk (some "text/plain") none (some ⟨some "aGk=", none, none⟩) none])) = true ∧
    decode_body (.mk none none none (some
      [.mk (some "text/html") none (some ⟨some "PGI+aGk8L2I+", none, none⟩) none,
       .mk (some "text/plain") none (some ⟨some "aGk=", none, none⟩) none])) =
      .ok (extractText_amended (.mk none none none (some
      [.mk (some "text/html") none (some ⟨some "PGI+aGk8L2I+", none, none⟩) none,
       .mk (some "text/plain") none (some ⟨some "aGk=", none, none⟩) none]))) :=
  ⟨rfl, c1_extract_text_amended _ rfl⟩

/-- C2: the walkers are claimed never to raise on a missing optional
field, but `decode_body` evaluates `part["body"]` unguarded: a child
part declared "text/plain" with no `body` key raises `KeyError` (modelled
as `.error`), while `get_attachments_info` on the same payload degrades
gracefully as claimed. -/
theorem c2_missing_body_raises :
    decode_body (.mk none none none (some [.mk (some "text/plain") none none none])) =
      .error "KeyError: body" ∧
    get_attachments_info
      (.mk none none none (some [.mk (some "text/plain") none none none])) = [] :=
  ⟨rfl, by simp [get_attachments_info, Payload.parts, process_parts.eq_def, process_parts_sub]⟩

theorem nodes_of_eq (mt fn : Option String) (b : Option MsgBody)
    (ps : Option (List Payload)) :
    nodes_of (.mk mt fn b ps) = nodes_of_sub ps := by
  rw [nodes_of.eq_def]

theorem nodes_of_sub_none : nodes_of_sub none = [] := by
  rw [nodes_of_sub.eq_def]

theorem nodes_of_sub_some (l : List Payload) : nodes_of_sub (some l) = nodes_of_list l := by
  rw [nodes_of_sub.eq_def]

theorem nodes_of_list_nil : nodes_of_list [] = [] := by
  rw [nodes_of_list.eq_def]

theorem nodes_of_list_cons (q : Payload) (rest : List Payload) :
    nodes_of_list (q :: rest) = q :: (nodes_of q ++ nodes_of_list rest) := by
  rw [nodes_of_list.eq_def]

/-- The per-node conditions of the amended C8 hypothesis: the node is not
a "text/plain" part carrying inline data, carries no inline data itself
if it has a `parts` key, and has a `body` key if declared "text/plain". -/
def htmlOnlyNodeOk (q : Payload) : Prop :=
  ¬(q.mimeType = some "text/plain" ∧ partData q ≠ "") ∧
  ((q.parts).isSome = true → partData q = "") ∧
  (q.mimeType = some "text/plain" → (q.body).isSome = true)

instance (q : Payload) : Decidable (htmlOnlyNodeOk q) := by
  unfold htmlOnlyNodeOk
  infer_instance

theorem decode_body_html_only_aux :
    (∀ p : Payload, partData p = "" → (∀ q ∈ nodes_of p, htmlOnlyNodeOk q) →
      decode_body p = .ok "") ∧
    (∀ l : List Payload, (∀ q ∈ nodes_of_list l, htmlOnlyNodeOk q) →
      decode_body_loop l = .ok "") := by
  apply payload_rec_aux
    (fun p => partData p = "" → (∀ q ∈ nodes_of p, htmlOnlyNodeOk q) →
      decode_body p = .ok "")
    (fun l => (∀ q ∈ nodes_of_list l, htmlOnlyNodeOk q) →
      decode_body_loop l = .ok "")
  · intro mt fn b ps ih hd hall
    have hd' : bodyData b = "" := by simpa [partData, Payload.body] using hd
    rw [decode_body_eq]
    simp only [hd', ne_eq, not_true_eq_false, ite_false, if_neg, not_false_eq_true]
    cases ps with
    | none => rfl
    | some l =>
      apply ih l rfl
      intro q hq
      apply hall
      rw [nodes_of_eq, nodes_of_sub_some]
      exact hq
  · intro _
    rw [decode_body_loop_nil]
  · intro q rest hqmot hrestmot hall
    have hallq : htmlOnlyNodeOk q := by
      apply hall
      rw [nodes_of_list_cons]
      exact List.mem_cons_self q _
    have hallsub : ∀ x ∈ nodes_of q, htmlOnlyNodeOk x := by
      intro x hx
      apply hall
      rw [nodes_of_list_cons]
      exact List.mem_cons_of_mem _ (List.mem_append_left _ hx)
    have hallrest : ∀ x ∈ nodes_of_list rest, htmlOnlyNodeOk x := by
      intro x hx
      apply hall
      rw [nodes_of_list_cons]
      exact List.mem_cons_of_mem _ (List.mem_append_right _ hx)
    rw [decode_body_loop_cons]
    cases q with
    | mk mt fn b sub =>
      by_cases hmt : mt = some "text/plain"
      · subst hmt
        have hb : b.isSome = true := by
          simpa [htmlOnlyNodeOk, Payload.mimeType, Payload.body] using hallq.2.2
        cases b with
        | none => simp at hb
        | some bb =>
          have hdata : bb.data.getD "" = "" := by
            have h1 := hallq.1
            simp [Payload.mimeType, partData, Payload.body, bodyData] at h1
            exact h1
          simp [Payload.mimeType, Payload.body, hdata, hrestmot hallrest]
      · cases sub with
        | none => simp [Payload.mimeType, Payload.parts, hmt, hrestmot hallrest]
        | some l =>
          have hdq : partData (Payload.mk mt fn b (some l)) = "" := by
            apply hallq.2.1
            simp [Payload.parts]
          have hq0 : decode_body (Payload.mk mt fn b (some l)) = .ok "" :=
            hqmot hdq hallsub
          simp [Payload.mimeType, Payload.parts, hmt, hq0, hrestmot hallrest]

/-- C8 (counterexample): a payload with no "text/plain" part anywhere and
no inline data at the root can still extract a non-empty HTML body: when
a "text/html" child both has a `parts` key and carries inline data, the
recursion returns that child's own data (decoding to "hi" here), so
`extractText` does fall back to HTML on such trees. -/
theorem c8_counterexample :
    (∀ q ∈ (Payload.mk none none none (some
        [.mk (some "text/html") none (some ⟨some "aGk=", none, none⟩) (some [])])) ::
        nodes_of (.mk none none none (some
        [.mk (some "text/html") none (some ⟨some "aGk=", none, none⟩) (some [])])),
      ¬(q.mimeType = some "text/plain" ∧ partData q ≠ "")) ∧
    partData (.mk none none none (some
      [.mk (some "text/html") none (some ⟨some "aGk=", none, none⟩) (some [])])) = "" ∧
    decode_body (.mk none none none (some
      [.mk (some "text/html") none (some ⟨some "aGk=", none, none⟩) (some [])])) =
      .ok "hi" :=
  ⟨by decide, rfl, rfl⟩

/-- C8 (amended): on every payload tree in which no part is a
"text/plain" part carrying inline data, no part that has a `parts` key
carries inline data of its own, every "text/plain" part has a `body`
key, and the root carries no inline data, `extractText` returns the
empty string — it never falls back to HTML or any other type. -/
theorem c8_html_only_amended (p : Payload) (h1 : partData p = "")
    (h2 : ∀ q ∈ nodes_of p, htmlOnlyNodeOk q) :
    decode_body p = .ok "" :=
  decode_body_html_only_aux.1 p h1 h2

/-- C8 witness: an html-only multipart payload (one "text/html" leaf with
inline data) satisfies the amended hypotheses and extracts "". -/
theorem c8_html_only_amended_witness :
    partData (.mk none none none (some
      [.mk (some "text/html") none (some ⟨some "PGI+aGk8L2I+", none, none⟩) none])) = "" ∧
    (∀ q ∈ nodes_of (.mk none none none (some
      [.mk (some "text/html") none (some ⟨some "PGI+aGk8L2I+", none, none⟩) none])),
      htmlOnlyNodeOk q) ∧
    decode_body (.mk none none none (some
      [.mk (some "text/html") none (some ⟨some "PGI+aGk8L2I+", none, none⟩) none])) =
      .ok "" :=
  ⟨rfl, by decide, c8_html_only_amended _ rfl (by decide)⟩

/-- C9: a payload whose root carries inline base64url body data and has
no `parts` key extracts the decoded content of that data immediately,
whatever the declared mime type and other metadata; "aGVsbG8=" decodes
to "hello", and data decoding to the lone invalid-UTF-8 byte 255
("_w==") yields the U+FFFD replacement character rather than a
failure. -/
theorem c9_top_level_inline :
    (∀ (mt fn : Option String) (sz : Option Nat) (aid : Option String) (d : String),
      d ≠ "" → decode_body (.mk mt fn (some ⟨some d, sz, aid⟩) none) = .ok (b64ToStr d)) ∧
    b64ToStr "aGVsbG8=" = "hello" ∧
    b64ToStr "_w==" = "\uFFFD" := by
  refine ⟨?_, by decide, by decide⟩
  intro mt fn sz aid d hd
  rw [decode_body_eq]
  simp [bodyData, hd]

/-- C9 witness: the claim instantiated at data "aGVsbG8=", which is
non-empty and decodes to "hello". -/
theorem c9_top_level_inline_witness :
    ("aGVsbG8=" : String) ≠ "" ∧
    decode_body (.mk none none (some ⟨some "aGVsbG8=", none, none⟩) none) =
      .ok (b64ToStr "aGVsbG8=") :=
  ⟨by decide, c9_top_level_inline.1 none none none none "aGVsbG8=" (by decide)⟩

/-- C4: the builder yields a single-part message exactly when the body is
plain and no attachment is given; any html body or non-empty attachment
list yields a multipart message. -/
theorem c4_multipart_shape (fs : String → Option (List Nat)) (body : List Nat) (html : Bool)
    (attachments : List String) (m : BuiltMsg)
    (h : build_message_parts fs body html attachments = .ok m) :
    isMultipart m = (html || !attachments.isEmpty) := by
  unfold build_message_parts at h
  by_cases hc : (!attachments.isEmpty || html) = true
  · rw [if_pos hc] at h
    cases hm : attach_files fs attachments with
    | error e => rw [hm] at h; simp [Bind.bind, Except.bind] at h
    | ok fps =>
      rw [hm] at h
      simp [Bind.bind, Except.bind] at h
      rw [← h]
      simp only [isMultipart]
      rw [Bool.or_comm] at hc
      exact hc.symm
  · rw [if_neg hc] at h
    simp at h
    rw [← h]
    simp at hc
    simp [isMultipart, hc.1, hc.2]

/-- C4 witness: plain body with one (existing) attachment yields a
multipart message. -/
theorem c4_multipart_shape_witness :
    isMultipart (BuiltMsg.multipart
      [.textPart "plain" [], .filePart "a.txt" "text/plain" []]) =
      (false || !(["a.txt"] : List String).isEmpty) :=
  c4_multipart_shape (fun _ => some []) [] false ["a.txt"]
    (BuiltMsg.multipart [.textPart "plain" [], .filePart "a.txt" "text/plain" []]) rfl

theorem attach_files_error (fs : String → Option (List Nat)) (l : List String)
    (h : ∃ p ∈ l, fs p = none) :
    ∃ e, attach_files fs l = .error e := by
  induction l with
  | nil => simp at h
  | cons a rest ih =>
    rcases h with ⟨p, hp, hfs⟩
    rcases List.mem_cons.mp hp with hpa | hpr
    · subst hpa
      refine ⟨"Attachment not found: " ++ p, ?_⟩
      simp [attach_files, attach_file, hfs, Bind.bind, Except.bind]
    · cases ha : fs a with
      | none =>
        refine ⟨"Attachment not found: " ++ a, ?_⟩
        simp [attach_files, attach_file, ha, Bind.bind, Except.bind]
      | some bytes =>
        obtain ⟨e, he⟩ := ih ⟨p, hpr, hfs⟩
        refine ⟨e, ?_⟩
        simp [attach_files, attach_file, ha, Bind.bind, Except.bind, he]

/-- C6: when any attachment path does not exist in the local filesystem,
the whole message-construction step of `draft` raises
`AttachmentNotFound` and the command issues no network request at all
(no partial message is sent). -/
theorem c6_attachment_not_found (fs : String → Option (List Nat)) (toAddr subject : String)
    (cc bcc : Option String) (body : List Nat) (html : Bool) (attachments : List String)
    (replyTo : Bool) (origHeaders : List (String × String))
    (h : ∃ p ∈ attachments, fs p = none) :
    draft_network_requests fs toAddr subject cc bcc body html attachments replyTo
      origHeaders = [] := by
  obtain ⟨e, he⟩ := attach_files_error fs attachments h
  have hne : attachments ≠ [] := by
    rintro rfl
    simp at h
  have hc : (!attachments.isEmpty || html) = true := by
    simp [List.isEmpty_iff, hne]
  unfold draft_network_requests build_draft_message build_message_parts
  rw [if_pos hc, he]
  simp [Bind.bind, Except.bind]

/-- C6 witness: a draft with one missing attachment path produces no
request. -/
theorem c6_attachment_not_found_witness :
    (∃ p ∈ (["missing.txt"] : List String),
      (fun _ : String => (none : Option (List Nat))) p = none) ∧
    draft_network_requests (fun _ => none) "a@b.example" "subject" none none [] false
      ["missing.txt"] false [] = [] :=
  ⟨⟨"missing.txt", by simp, rfl⟩,
    c6_attachment_not_found (fun _ => none) "a@b.example" "subject" none none [] false
      ["missing.txt"] false [] ⟨"missing.txt", by simp, rfl⟩⟩

theorem optHeader_names (n : String) (v : Option String) :
    ∀ p ∈ optHeader n v, p.1 = n := by
  cases v with
  | none => simp [optHeader]
  | some s =>
    by_cases hs : s = "" <;> simp [optHeader, hs]

theorem get_header_append_skip (xs ys : List (String × String)) (name : String)
    (h : ∀ p ∈ xs, ¬ lowerStr p.1 = lowerStr name) :
    get_header (xs ++ ys) name = get_header ys name := by
  induction xs with
  | nil => rfl
  | cons a rest ih =>
    have ha := h a (List.mem_cons_self a rest)
    cases a with
    | mk n v =>
      simp only [List.cons_append, get_header, if_neg ha]
      exact ih (fun p hp => h p (List.mem_cons_of_mem _ hp))

/-- C7: when replying, if the prior message's Message-ID header value is
non-empty the builder sets both "In-Reply-To" and "References" to
exactly that value; when the prior message has no Message-ID, neither
header is set (reading them back yields "") and no error occurs. -/
theorem c7_reply_threading (toAddr subject : String) (cc bcc : Option String)
    (origHeaders : List (String × String)) :
    (get_header origHeaders "Message-ID" ≠ "" →
      get_header (assemble_draft_headers toAddr subject cc bcc true origHeaders)
          "In-Reply-To" = get_header origHeaders "Message-ID" ∧
      get_header (assemble_draft_headers toAddr subject cc bcc true origHeaders)
          "References" = get_header origHeaders "Message-ID") ∧
    (get_header origHeaders "Message-ID" = "" →
      get_header (assemble_draft_headers toAddr subject cc bcc true origHeaders)
          "In-Reply-To" = "" ∧
      get_header (assemble_draft_headers toAddr subject cc bcc true origHeaders)
          "References" = "") := by
  have hskip1 : ∀ p ∈ ([("To", toAddr), ("Subject", subject)] ++ optHeader "Cc" cc ++
      optHeader "Bcc" bcc), ¬ lowerStr p.1 = lowerStr "In-Reply-To" := by
    intro p hp
    simp at hp
    rcases hp with rfl | rfl | hp | hp
    · exact (by decide : ¬ lowerStr "To" = lowerStr "In-Reply-To")
    · exact (by decide : ¬ lowerStr "Subject" = lowerStr "In-Reply-To")
    · rw [optHeader_names "Cc" cc p hp]; decide
    · rw [optHeader_names "Bcc" bcc p hp]; decide
  have hskip2 : ∀ p ∈ ([("To", toAddr), ("Subject", subject)] ++ optHeader "Cc" cc ++
      optHeader "Bcc" bcc), ¬ lowerStr p.1 = lowerStr "References" := by
    intro p hp
    simp at hp
    rcases hp with rfl | rfl | hp | hp
    · exact (by decide : ¬ lowerStr "To" = lowerStr "References")
    · exact (by decide : ¬ lowerStr "Subject" = lowerStr "References")
    · rw [optHeader_names "Cc" cc p hp]; decide
    · rw [optHeader_names "Bcc" bcc p hp]; decide
  unfold assemble_draft_headers
  simp only [if_pos rfl, List.append_assoc]
  rw [← List.append_assoc ([("To", toAddr), ("Subject", subject)]) (optHeader "Cc" cc),
    ← List.append_assoc]
  constructor
  · intro hne
    rw [get_header_append_skip _ _ _ hskip1, get_header_append_skip _ _ _ hskip2]
    unfold reply_headers
    rw [if_neg hne]
    constructor
    · simp [get_header]
    · simp [get_header, show ¬ lowerStr "In-Reply-To" = lowerStr "References" from by decide]
  · intro heq
    rw [get_header_append_skip _ _ _ hskip1, get_header_append_skip _ _ _ hskip2]
    unfold reply_headers
    rw [if_pos heq]
    exact ⟨rfl, rfl⟩

/-- C7 witness: replying to a message with Message-ID `<abc@mail.example>`
sets both threading headers to that exact value. -/
theorem c7_reply_threading_witness :
    get_header [("Message-ID", "<abc@mail.example>")] "Message-ID" ≠ "" ∧
    get_header (assemble_draft_headers "a@b.example" "Re: hello" none none true
        [("Message-ID", "<abc@mail.example>")]) "In-Reply-To" = "<abc@mail.example>" ∧
    get_header (assemble_draft_headers "a@b.example" "Re: hello" none none true
        [("Message-ID", "<abc@mail.example>")]) "References" = "<abc@mail.example>" := by
  have h := (c7_reply_threading "a@b.example" "Re: hello" none none
    [("Message-ID", "<abc@mail.example>")]).1 (by decide)
  exact ⟨by decide, h.1, h.2⟩

/-! ## Round-trip of `encode_message` (base64url) and the header block -/

theorem b64val_b64chr : ∀ n, n < 64 → b64val (b64chr n) = n := by decide

theorem b64chr_ne_61 : ∀ n, n < 64 → b64chr n ≠ 61 := by decide

theorem b64_roundtrip_aux : ∀ (fuel : Nat) (bs : List Nat), bs.length ≤ fuel →
    (∀ x ∈ bs, x < 256) → b64decBytes (b64encBytes bs) = bs := by
  intro fuel
  induction fuel with
  | zero =>
    intro bs hlen _
    rw [List.length_eq_zero.mp (Nat.le_zero.mp hlen)]
    rfl
  | succ n ih =>
    intro bs hlen hmem
    match bs with
    | [] => rfl
    | [a] =>
      have ha : a < 256 := hmem a (by simp)
      rw [b64encBytes, b64decBytes]
      rw [if_pos rfl]
      rw [b64val_b64chr (a / 4) (by omega), b64val_b64chr (a % 4 * 16) (by omega)]
      simp only [List.cons.injEq, and_true]
      omega
    | [a, b] =>
      have ha : a < 256 := hmem a (by simp)
      have hb : b < 256 := hmem b (by simp)
      rw [b64encBytes, b64decBytes]
      rw [if_neg (b64chr_ne_61 (b % 16 * 4) (by omega)), if_pos rfl]
      rw [b64val_b64chr (a / 4) (by omega), b64val_b64chr (a % 4 * 16 + b / 16) (by omega),
        b64val_b64chr (b % 16 * 4) (by omega)]
      simp only [List.cons.injEq, and_true]
      omega
    | a :: b :: c :: rest =>
      have ha : a < 256 := hmem a (by simp)
      have hb : b < 256 := hmem b (by simp)
      have hc : c < 256 := hmem c (by simp)
      rw [b64encBytes, b64decBytes]
      rw [if_neg (b64chr_ne_61 (b % 16 * 4 + c / 64) (by omega)),
        if_neg (b64chr_ne_61 (c % 64) (by omega))]
      rw [b64val_b64chr (a / 4) (by omega), b64val_b64chr (a % 4 * 16 + b / 16) (by omega),
        b64val_b64chr (b % 16 * 4 + c / 64) (by omega), b64val_b64chr (c % 64) (by omega)]
      have hrest : b64decBytes (b64encBytes rest) = rest := by
        apply ih rest (by simp at hlen; omega)
        intro x hx
        exact hmem x (by simp [hx])
      rw [hrest]
      simp only [List.cons.injEq, and_true]
      omega

/-- base64url decoding inverts `encode_message` on every byte list. -/
theorem encode_message_roundtrip (bs : List Nat) (h : ∀ x ∈ bs, x < 256) :
    b64decBytes (encode_message bs) = bs :=
  b64_roundtrip_aux bs.length bs le_rfl h

theorem splitNL_append (l r : List Nat) (h : 10 ∉ l) : splitNL (l ++ 10 :: r) = (l, r) := by
  induction l with
  | nil => simp [splitNL]
  | cons b rest ih =>
    have hb : b ≠ 10 := by
      intro hb
      exact h (hb ▸ List.mem_cons_self b rest)
    have h' : 10 ∉ rest := fun hr => h (List.mem_cons_of_mem _ hr)
    simp [splitNL, hb, ih h']

theorem splitColon_append (l r : List Nat) (h : 58 ∉ l) : splitColon (l ++ 58 :: r) = (l, r) := by
  induction l with
  | nil => simp [splitColon]
  | cons b rest ih =>
    have hb : b ≠ 58 := by
      intro hb
      exact h (hb ▸ List.mem_cons_self b rest)
    have h' : 58 ∉ rest := fun hr => h (List.mem_cons_of_mem _ hr)
    simp [splitColon, hb, ih h']

theorem parse_header_block_ne (bs : List Nat) (h : bs ≠ []) :
    parse_header_block bs =
      if (splitNL bs).1 = [] then []
      else parse_header_line (splitNL bs).1 :: parse_header_block (splitNL bs).2 := by
  match bs with
  | [] => exact absurd rfl h
  | b :: rest => rw [parse_header_block.eq_def]

/-- Headers serializable without escaping: no line feed in names or
values and no colon in names. -/
def wf_headers (hs : List (List Nat × List Nat)) : Prop :=
  ∀ h ∈ hs, 10 ∉ h.1 ∧ 58 ∉ h.1 ∧ 10 ∉ h.2

instance (hs : List (List Nat × List Nat)) : Decidable (wf_headers hs) := by
  unfold wf_headers
  infer_instance

theorem parse_serialize (hs : List (List Nat × List Nat)) (body : List Nat)
    (hwf : wf_headers hs) : parse_header_block (message_bytes hs body) = hs := by
  induction hs with
  | nil =>
    rw [message_bytes, parse_header_block_ne _ (by simp)]
    simp [splitNL]
  | cons hd rest ih =>
    obtain ⟨h10n, h58n, h10v⟩ := hwf hd (List.mem_cons_self hd rest)
    obtain ⟨hn, hv⟩ := hd
    rw [message_bytes]
    have hassoc : hn ++ 58 :: 32 :: hv ++ 10 :: message_bytes rest body =
        (hn ++ 58 :: 32 :: hv) ++ 10 :: message_bytes rest body := by simp
    rw [hassoc, parse_header_block_ne _ (by simp)]
    have hnl : 10 ∉ (hn ++ 58 :: 32 :: hv) := by
      simp only [List.mem_append, List.mem_cons]
      push_neg
      exact ⟨h10n, by omega, by omega, h10v⟩
    rw [splitNL_append _ _ hnl]
    rw [if_neg (by simp)]
    have hline : parse_header_line (hn ++ 58 :: 32 :: hv) = (hn, hv) := by
      unfold parse_header_line
      rw [splitColon_append _ _ h58n]
      simp [dropOneSpace]
    rw [hline]
    simp only [List.cons.injEq, true_and]
    exact ih (fun p hp => hwf p (List.mem_cons_of_mem _ hp))

/-- C5: decoding the base64url output of `encode_message` back to raw
bytes and re-parsing the header block recovers every header serialized
into the message, byte for byte, whatever the body bytes are. -/
theorem c5_header_roundtrip (hs : List (List Nat × List Nat)) (body : List Nat)
    (hwf : wf_headers hs) (hbytes : ∀ x ∈ message_bytes hs body, x < 256) :
    parse_header_block (b64decBytes (encode_message (message_bytes hs body))) = hs := by
  rw [encode_message_roundtrip _ hbytes]
  exact parse_serialize hs body hwf

/-- C5 witness: the header `To: a@b` with body "hi" survives the
serialize / base64url-encode / decode / re-parse round trip. -/
theorem c5_header_roundtrip_witness :
    wf_headers [([84, 111], [97, 64, 98])] ∧
    (∀ x ∈ message_bytes [([84, 111], [97, 64, 98])] [104, 105], x < 256) ∧
    parse_header_block (b64decBytes (encode_message
      (message_bytes [([84, 111], [97, 64, 98])] [104, 105]))) =
      [([84, 111], [97, 64, 98])] :=
  ⟨by decide, by decide, c5_header_roundtrip _ _ (by decide) (by decide)⟩
